import Mathlib

/-!
Verification of the message-database ETL system against its specification.

The Python sources are shallowly embedded as Lean functions:

* `HostawayClient` — `src/api/hostaway_client.py`: request retry logic
  (`_make_request`), listing parameters (`get_messages`) and the pagination
  loop (`get_all_messages`).
* `MongoStore` — `src/database/mongodb.py`: the upsert write (`insert_message`).
* `Pipeline` — `src/pipeline/etl.py`: the transformer (`_transform_message`),
  per-record processing (`_process_message`) and the orchestration loop
  (`extract_transform_load`).
* `MessageDatabase` — `src/message_database/pipeline/etl.py`: the older
  pipeline variant's transformer, which differs in its content / direction /
  message_type rules.

External collaborators (the HTTP library, MongoDB driver, `datetime` parsing,
logging) are modelled as explicit environments passed to the functions;
Python dictionary fields read by the code are modelled as `Option`-valued
record fields, with `Option.getD` standing for `dict.get(key, default)`.
-/

set_option linter.unnecessarySeqFocus false

namespace MessageDB

/-! ## Remote API gateway — `src/api/hostaway_client.py` -/

namespace HostawayClient

/-- Outcome of one HTTP attempt inside `_make_request`, as the code can
observe it: either `requests.request` raises a transport-level
`RequestException`, or a response arrives carrying an HTTP status code and
the `status` field of its JSON body. -/
inductive HttpResp where
  | transportError : HttpResp
  | resp (status : Nat) (bodyStatus : String) : HttpResp
deriving DecidableEq, Repr

/-- Final outcome of `_make_request`: the parsed response body is returned
(`ok`), or `HostawayAPIError` is raised (`apiError`). -/
inductive ReqOutcome where
  | ok : ReqOutcome
  | apiError : ReqOutcome
deriving DecidableEq, Repr

/-- Result of a `_make_request` call together with the observable side
effects the auth-refresh claim is about: how many times the cached token was
discarded and re-fetched, and how many HTTP requests were issued. -/
structure ReqTrace where
  outcome : ReqOutcome
  refreshes : Nat
  requests : Nat
deriving DecidableEq, Repr

/-- The `max_retries = 3` constant of `_make_request`. -/
def maxRetries : Nat := 3

/-- The retry loop of `_make_request` (`for attempt in range(max_retries)`).
`remaining` counts loop iterations still available, so the current Python
`attempt` index is `maxRetries - remaining`; the guard
`attempt < max_retries - 1` is `1 ≤ remaining - 1 + 1`, i.e. the match arm
`remaining = n + 2`.  Arm by arm:

* a transport error (`requests.exceptions.RequestException`) is caught; on
  the last attempt it is re-raised as `HostawayAPIError`, otherwise the loop
  continues;
* status 401/403 with `attempt < max_retries - 1` resets `self.access_token`,
  fetches a fresh token and continues (counted in `refreshes`);
* any other status `≥ 400` (including 401/403 on the last attempt) makes
  `raise_for_status` raise, which is caught like a transport error;
* a 2xx response whose body `status` field is not `"success"` raises
  `HostawayAPIError` directly — this exception is not a `RequestException`,
  so it is not retried;
* otherwise the response is returned. -/
def makeRequestGo (responses : Nat → HttpResp) :
    Nat → Nat → Nat → ReqTrace
  | 0, refreshes, requests => ⟨.apiError, refreshes, requests⟩
  | remaining + 1, refreshes, requests =>
    let attempt := maxRetries - (remaining + 1)
    match responses attempt with
    | .transportError =>
      if remaining = 0 then ⟨.apiError, refreshes, requests + 1⟩
      else makeRequestGo responses remaining refreshes (requests + 1)
    | .resp status bodyStatus =>
      if (status = 401 ∨ status = 403) ∧ 1 ≤ remaining then
        makeRequestGo responses remaining (refreshes + 1) (requests + 1)
      else if 400 ≤ status then
        if remaining = 0 then ⟨.apiError, refreshes, requests + 1⟩
        else makeRequestGo responses remaining refreshes (requests + 1)
      else if bodyStatus ≠ "success" then ⟨.apiError, refreshes, requests + 1⟩
      else ⟨.ok, refreshes, requests + 1⟩

/-- `_make_request` run against a response environment: attempt `i` of the
loop observes `responses i`.  The initial token is assumed cached and valid
(the claim under study concerns the 401/403 handling inside the loop, not
the initial `_get_access_token` call), and `dry_run` short-circuits the whole
call as in the source. -/
def makeRequest (dryRun : Bool) (responses : Nat → HttpResp) : ReqTrace :=
  if dryRun then ⟨.ok, 0, 0⟩
  else makeRequestGo responses maxRetries 0 0

/-- A response is an auth failure when its HTTP status is 401 or 403. -/
def isAuthFailure : HttpResp → Prop
  | .transportError => False
  | .resp status _ => status = 401 ∨ status = 403

instance (r : HttpResp) : Decidable (isAuthFailure r) := by
  cases r with
  | transportError => exact isFalse (fun h => h)
  | resp status bodyStatus => exact inferInstanceAs (Decidable (_ ∨ _))

/-- Concrete response sequence: 401 on the first two attempts, then a
successful response.  Exercises the "second consecutive auth error" path. -/
def responses401twice : Nat → HttpResp := fun attempt =>
  if attempt ≤ 1 then .resp 401 "" else .resp 200 "success"

/-- Concrete response sequence: 401 on every attempt. -/
def responses401always : Nat → HttpResp := fun _ => .resp 401 ""

/-- Concrete response sequence: 401 then immediate success. -/
def responses401once : Nat → HttpResp := fun attempt =>
  if attempt = 0 then .resp 401 "" else .resp 200 "success"

/-! ### Listing parameters — `get_messages` -/

/-- Components of a parsed Python `datetime`, sufficient to model
`datetime.fromisoformat(since_timestamp.replace('Z', '+00:00'))` followed by
`strftime('%Y-%m-%d')`: the former yields these components, the latter keeps
only `year`/`month`/`day`. -/
structure PyDateTime where
  year : Nat
  month : Nat
  day : Nat
  hour : Nat
  minute : Nat
  second : Nat
deriving DecidableEq, Repr

/-- A query-parameter value: an integer, a string, or the
`strftime('%Y-%m-%d')` rendering of a datetime, which depends on exactly the
year, month and day components. -/
inductive ParamValue where
  | nat (n : Nat) : ParamValue
  | str (s : String) : ParamValue
  | date (year month day : Nat) : ParamValue
deriving DecidableEq, Repr

/-- The query parameters built by `get_messages`: always `limit` and
`offset`; when a (non-empty, hence parsed) `since_timestamp` is given, also
`arrivalStartDate` holding only the date portion of the parsed timestamp.
`since = none` covers both `None` and the Python-falsy empty string. -/
def getMessagesParams (since : Option PyDateTime) (limit offset : Nat) :
    List (String × ParamValue) :=
  let params := [("limit", ParamValue.nat limit), ("offset", ParamValue.nat offset)]
  match since with
  | none => params
  | some t => params ++ [("arrivalStartDate", ParamValue.date t.year t.month t.day)]

/-! ### Pagination — `get_all_messages` -/

/-- The `while True` pagination loop of `get_all_messages`, returning the
yielded records together with the number of `get_messages` requests issued.
`pages offset` is the `result` list of the response to the request at that
offset.  `fuel` bounds the number of loop iterations so the function is
total; the pagination theorem shows the result is the same for every
sufficient `fuel`, i.e. the loop exits by itself.  Mirroring the source: an
empty page breaks before yielding; otherwise all records of the page are
yielded, the offset advances by `limit`, and a page shorter than `limit`
breaks after yielding. -/
def getAllMessagesGo {α : Type} (pages : Nat → List α) (limit : Nat) :
    Nat → Nat → List α × Nat
  | 0, _ => ([], 0)
  | fuel + 1, offset =>
    let messages := pages offset
    if messages.isEmpty then ([], 1)
    else if messages.length < limit then (messages, 1)
    else
      let rest := getAllMessagesGo pages limit fuel (offset + limit)
      (messages ++ rest.1, 1 + rest.2)

/-- `get_all_messages`: pagination starting at `offset = 0`.  The source
fixes `limit = 100`; it is kept as a parameter so the stub of the
pagination claim (page size 2) is expressible, with `getAllMessages pages
100` the code's instantiation. -/
def getAllMessages {α : Type} (pages : Nat → List α) (limit fuel : Nat) :
    List α × Nat :=
  getAllMessagesGo pages limit fuel 0

/-- Stub gateway for the pagination claim: pages of sizes `[2, 2, 1]` at
offsets 0, 2, 4 (page-size limit 2), nothing afterwards. -/
def pagesStub : Nat → List String := fun offset =>
  if offset = 0 then ["m1", "m2"]
  else if offset = 2 then ["m3", "m4"]
  else if offset = 4 then ["m5"]
  else []

/-- Specification-side value for the pagination claim: the concatenation of
the `n + 1` pages at offsets `offset, offset + limit, …, offset + n·limit`
(the last being the first empty-or-short page). -/
def pagesConcat {α : Type} (pages : Nat → List α) (limit offset : Nat) :
    Nat → List α
  | 0 => pages offset
  | n + 1 => pages offset ++ pagesConcat pages limit (offset + limit) n

end HostawayClient

/-! ## Store adapter — `src/database/mongodb.py` -/

namespace MongoStore

/-- A stored document: an association list of field names to values.  Field
values are treated opaquely (the adapter never inspects them), so they are
modelled as strings.  A Python dictionary has unique keys; documents built
from one satisfy `docKeysNodup`. -/
abbrev Doc : Type := List (String × String)

/-- Reading a field of a document (`doc.get(key)` / index access): the value
at the first occurrence of the key, if any. -/
def getField (d : Doc) (key : String) : Option String :=
  (d.find? (fun kv => kv.1 = key)).map (fun kv => kv.2)

/-- Keys of a document. -/
def docKeys (d : Doc) : List String := d.map (fun kv => kv.1)

/-- A document arising from a Python dictionary has pairwise-distinct keys. -/
abbrev docKeysNodup (d : Doc) : Prop := (docKeys d).Nodup

/-- Setting one field of a document (one step of MongoDB `$set`): replace
the value at the key if present, else append the pair. -/
def setField : Doc → String → String → Doc
  | [], key, v => [(key, v)]
  | kv :: rest, key, v =>
    if kv.1 = key then (key, v) :: rest else kv :: setField rest key v

/-- MongoDB `$set` with update document `m`: every field of `m` is written
into `d`, in order. -/
def applySet (d : Doc) (m : Doc) : Doc :=
  m.foldl (fun acc kv => setField acc kv.1 kv.2) d

/-- The collection state relevant to `insert_message`: the `connected` flag
and the list of stored documents. -/
structure State where
  connected : Bool
  docs : List Doc

/-- MongoDB `update_one({"message_id": key}, {"$set": m}, upsert=True)` on
the document list: the first document whose `message_id` equals `key`
receives `$set m` in place; when no document matches, a new document is
created from the filter and the update (`{"message_id": key}` with `$set m`
applied) and appended. -/
def updateOneUpsert : List Doc → String → Doc → List Doc
  | [], key, m => [applySet [("message_id", key)] m]
  | d :: rest, key, m =>
    if getField d "message_id" = some key then applySet d m :: rest
    else d :: updateOneUpsert rest key m

/-- `insert_message(message_data)`: returns `False` without writing when not
connected; raises `KeyError` (`.error ()`) when `message_data` has no
`message_id`; returns `False` without writing when the driver raises
`PyMongoError` (injected through `pymongoFails`); otherwise performs the
upsert keyed on `message_id` and returns `True`.  The dry-run short-circuit
(`return True` without writing) is `dryRun`. -/
def insertMessage (s : State) (m : Doc) (dryRun pymongoFails : Bool) :
    Except Unit (Bool × State) :=
  if !s.connected then .ok (false, s)
  else if dryRun then .ok (true, s)
  else
    match getField m "message_id" with
    | none => .error ()
    | some key =>
      if pymongoFails then .ok (false, s)
      else .ok (true, { s with docs := updateOneUpsert s.docs key m })

/-- Number of stored documents keyed by `key`. -/
def countKey (docs : List Doc) (key : String) : Nat :=
  docs.countP (fun d => getField d "message_id" = some key)

/-- The store invariant maintained by the unique index on `message_id`:
the `message_id` values of the stored documents are pairwise distinct. -/
abbrev storeKeysNodup (docs : List Doc) : Prop :=
  (docs.map (fun d => getField d "message_id")).Nodup

/-- The stored document keyed by `key`, if any. -/
def findByKey (docs : List Doc) (key : String) : Option Doc :=
  docs.find? (fun d => getField d "message_id" = some key)

end MongoStore

/-! ## Canonical message model — `src/models/message.py` -/

/-- `Property` entity. -/
structure PropertyEnt where
  id : String
  name : String
deriving DecidableEq, Repr

/-- `Guest` entity. -/
structure GuestEnt where
  name : String
  email : Option String
  phone : Option String
  nationality : Option String
deriving DecidableEq, Repr

/-- `Reservation` entity.  `price` is `Optional[Decimal]`; numeric values are
modelled as rationals (`float()` / `Decimal` coercions in the sources keep
the numeric value and are modelled as the identity; IEEE rounding is not
modelled and no claim concerns it). -/
structure ReservationEnt where
  id : String
  price : Option Rat
deriving DecidableEq, Repr

/-- The canonical `Message` entity.  The pydantic validators restrict
`direction` to `{"incoming", "outgoing"}` and `message_type` to
`{"automated", "manual"}`; both transformers only ever construct these
literals, so construction never raises a validation error here.
`created_at`/`updated_at` default to construction time. -/
structure Message where
  message_id : String
  property : PropertyEnt
  guest : GuestEnt
  content : String
  timestamp : HostawayClient.PyDateTime
  direction : String
  reservation : Option ReservationEnt
  message_type : String
  created_at : HostawayClient.PyDateTime
  updated_at : HostawayClient.PyDateTime
deriving DecidableEq, Repr

/-! ## Enrichment environment shared by both transformer variants -/

/-- Result dictionary of `get_property_details` (`result.get("name", "")`
is the only read). -/
structure PropertyDetails where
  name : Option String := none
deriving DecidableEq, Repr

/-- Result dictionary of `get_reservation_details`, restricted to the fields
the transformers read.  An upstream empty dictionary is the all-`none`
record (every `get` then yields its default, matching Python). -/
structure ReservationDetails where
  totalPrice : Option Rat := none
  guestName : Option String := none
  guestEmail : Option String := none
  phone : Option String := none
  guestCountry : Option String := none
deriving DecidableEq, Repr

/-- One entry of a `get_conversation_messages` result. -/
structure ConvMessage where
  body : Option String := none
deriving DecidableEq, Repr

/-- Environment supplying the transformer's enrichment calls and its
datetime library: each gateway lookup either raises `HostawayAPIError`
(`.error ()`) or returns its result; `parseDateTime` is
`datetime.strptime(s, "%Y-%m-%d %H:%M:%S")`, `parseIso` is
`datetime.fromisoformat(s)` (`none` when the call would raise
`ValueError`), and `now` is `datetime.now()`. -/
structure EnrichEnv where
  propertyDetails : String → Except Unit PropertyDetails
  reservationDetails : String → Except Unit ReservationDetails
  conversationMessages : String → Except Unit (List ConvMessage)
  parseDateTime : String → Option HostawayClient.PyDateTime
  parseIso : String → Option HostawayClient.PyDateTime
  now : HostawayClient.PyDateTime

/-- A raw upstream record as the transformers read it: each Python
`dict.get` is an `Option`-valued field (`none` = key absent).  String-typed
upstream values pass through `str(...)` unchanged in the code, so they are
kept as strings; `isIncoming` records the Python truthiness of the value. -/
structure RawRecord where
  id : Option String := none
  listingMapId : Option String := none
  listingName : Option String := none
  reservationId : Option String := none
  guestName : Option String := none
  guestEmail : Option String := none
  guestPhone : Option String := none
  guestCountry : Option String := none
  isIncoming : Option Bool := none
  type : Option String := none
  body : Option String := none
  insertedOn : Option String := none
  updatedOn : Option String := none
  messageSentOn : Option String := none
  messageReceivedOn : Option String := none
  recipientName : Option String := none
  recipientEmail : Option String := none
  phone : Option String := none
deriving DecidableEq, Repr

/-- Python `s.startswith(pre)`, as a structurally recursive prefix test on
the character lists (`String.startsWith` itself is defined by well-founded
recursion, which the kernel cannot evaluate). -/
def pyStartsWith (s pre : String) : Bool := pre.data.isPrefixOf s.data

/-- Python `a or b` on optional strings: `None` and `""` are falsy. -/
def pyOrStr (a b : Option String) : Option String :=
  match a with
  | some s => if s = "" then b else some s
  | none => b

/-! ## Record transformer — `src/pipeline/etl.py`, `_transform_message` -/

namespace Pipeline

/-- Non-fatal warnings `_transform_message` can log. -/
inductive Warning where
  | propertyLookupFailed : Warning
  | reservationLookupFailed : Warning
  | noContent : Warning
  | badTimestamp : Warning
deriving DecidableEq, Repr

/-- `property_id = str(message_data.get("listingMapId", ""))`. -/
def propertyIdOf (r : RawRecord) : String := r.listingMapId.getD ""

/-- Property-name block of `_transform_message`: the inline `listingName` is
used when non-empty; only when the id is truthy and the inline name is empty
is `get_property_details` consulted, and a lookup failure downgrades to an
empty name plus a warning. -/
def propertyNameResolution (env : EnrichEnv) (r : RawRecord) :
    String × List Warning :=
  if propertyIdOf r ≠ "" ∧ r.listingName.getD "" = "" then
    match env.propertyDetails (propertyIdOf r) with
    | .ok d => (d.name.getD "", [])
    | .error _ => ("", [Warning.propertyLookupFailed])
  else (r.listingName.getD "", [])

/-- `reservation_id = str(message_data.get("reservationId", ""))`. -/
def reservationIdOf (r : RawRecord) : String := r.reservationId.getD ""

/-- Reservation/guest block of `_transform_message`: with a truthy
reservation id the price and the guest fields come from
`get_reservation_details` (staying at their empty initial values, with a
warning, when the lookup raises); otherwise the guest fields come from the
record and the price stays `None`. -/
def guestReservationResolution (env : EnrichEnv) (r : RawRecord) :
    (Option Rat × GuestEnt) × List Warning :=
  if reservationIdOf r ≠ "" then
    match env.reservationDetails (reservationIdOf r) with
    | .ok d =>
      ((d.totalPrice,
        ⟨d.guestName.getD "", d.guestEmail, d.phone, d.guestCountry⟩), [])
    | .error _ =>
      ((none, ⟨"", none, none, none⟩), [Warning.reservationLookupFailed])
  else
    ((none,
      ⟨r.guestName.getD "", r.guestEmail, r.guestPhone, r.guestCountry⟩), [])

/-- Direction block of `_transform_message`: `isIncoming`, when present,
decides by truthiness; otherwise the `type` tag maps `guest-host-email` to
incoming and `host-guest-email` to outgoing, the default being outgoing. -/
def directionOf (r : RawRecord) : String :=
  match r.isIncoming with
  | some b => if b then "incoming" else "outgoing"
  | none =>
    let conversationType := r.type.getD ""
    if conversationType = "guest-host-email" then "incoming"
    else if conversationType = "host-guest-email" then "outgoing"
    else "outgoing"

/-- `content = message_data.get("body", "")`. -/
def contentOf (r : RawRecord) : String := r.body.getD ""

/-- The no-content warning: logged exactly when `content` is Python-falsy,
i.e. empty. -/
def contentWarningsOf (r : RawRecord) : List Warning :=
  if contentOf r = "" then [Warning.noContent] else []

/-- `message_time`: the first truthy of `insertedOn`, `updatedOn`,
`messageSentOn`, `messageReceivedOn` under Python `or`. -/
def messageTimeOf (r : RawRecord) : Option String :=
  pyOrStr r.insertedOn (pyOrStr r.updatedOn
    (pyOrStr r.messageSentOn r.messageReceivedOn))

/-- Timestamp block of `_transform_message`: `strptime` on `message_time`
when present, with `datetime.now()` kept (plus a warning) on a parse
failure, and `datetime.now()` silently when all four fields are falsy. -/
def timestampResolution (env : EnrichEnv) (r : RawRecord) :
    HostawayClient.PyDateTime × List Warning :=
  match messageTimeOf r with
  | none => (env.now, [])
  | some s =>
    match env.parseDateTime s with
    | some t => (t, [])
    | none => (env.now, [Warning.badTimestamp])

/-- `_transform_message` of the primary pipeline, returning the constructed
`Message` together with the warnings logged, in source order: property
block, reservation/guest block, content check, timestamp block.
`message_type` is the literal `"manual"` (the source comment reads "Default
to manual since we can't determine this from the API"). -/
def transformMessage (env : EnrichEnv) (r : RawRecord) :
    Message × List Warning :=
  ({ message_id := r.id.getD ""
     property := ⟨propertyIdOf r, (propertyNameResolution env r).1⟩
     guest := (guestReservationResolution env r).1.2
     content := contentOf r
     timestamp := (timestampResolution env r).1
     direction := directionOf r
     reservation :=
       if reservationIdOf r ≠ "" then
         some ⟨reservationIdOf r, (guestReservationResolution env r).1.1⟩
       else none
     message_type := "manual"
     created_at := env.now
     updated_at := env.now },
   (propertyNameResolution env r).2 ++ (guestReservationResolution env r).2
     ++ contentWarningsOf r ++ (timestampResolution env r).2)

end Pipeline

/-! ## Record transformer — `src/message_database/pipeline/etl.py` -/

namespace MessageDatabase

/-- `_transform_message` of the older pipeline variant.  Every enrichment
call is made unconditionally and without a local handler, so a gateway error
(`.error ()`) propagates to `_process_message` and becomes a per-record
error; likewise a `ValueError` from `fromisoformat`.  Content is always the
first entry's body of the `get_conversation_messages` lookup (the record's
own `body` is never consulted) with no warning on empty content; direction
and `message_type` come from prefix tests on the `type` tag; the
conversation id seen by the lookup is `str(message_data.get("id"))`, i.e.
the string `"None"` when the key is absent. -/
def transformMessage (env : EnrichEnv) (r : RawRecord) :
    Except Unit Message := do
  let conversationId := r.id.getD "None"
  let conversationMessages ← env.conversationMessages conversationId
  let content :=
    match conversationMessages.head? with
    | some firstMessage => firstMessage.body.getD ""
    | none => ""
  let propertyId := r.listingMapId.getD ""
  let propertyDetails ← env.propertyDetails propertyId
  let reservationId := r.reservationId.getD ""
  let reservationDetails ← (if reservationId ≠ "" then
      (env.reservationDetails reservationId).map some
    else .ok none)
  let timestamp ← (match r.messageSentOn with
    | none => .ok env.now
    | some s =>
      match env.parseIso s with
      | some t => Except.ok t
      | none => Except.error ())
  return { message_id := conversationId
           property := ⟨propertyId, propertyDetails.name.getD ""⟩
           guest := ⟨r.recipientName.getD "", r.recipientEmail, r.phone, none⟩
           content := content
           timestamp := timestamp
           direction :=
             if pyStartsWith (r.type.getD "") "guest" then "incoming"
             else "outgoing"
           reservation :=
             if reservationId ≠ "" then
               some ⟨reservationId,
                 some ((reservationDetails.bind
                   (fun d => d.totalPrice)).getD 0)⟩
             else none
           message_type :=
             if pyStartsWith (r.type.getD "") "automated" then "automated"
             else "manual"
           created_at := env.now
           updated_at := env.now }

end MessageDatabase

/-! ## Pipeline orchestration — `src/pipeline/etl.py`,
`extract_transform_load` and `_process_message` -/

namespace Pipeline

/-- What happens inside `_process_message` for one record, supplied by the
environment: `_transform_message` raises (any exception — enrichment
failure outside its local handlers, `float()` coercion failure, a pydantic
validation error), or it returns a message and `db.insert_message` reports
`insertOk`. -/
inductive ProcOutcome where
  | transformRaises : ProcOutcome
  | transformed (insertOk : Bool) : ProcOutcome
deriving DecidableEq, Repr

/-- `_process_message`: a raised exception is caught, logged and turned into
`False`; a `False` from `db.insert_message` is logged and returned;
otherwise `True`.  Total — no exception escapes this method. -/
def processMessage : ProcOutcome → Bool
  | .transformRaises => false
  | .transformed insertOk => insertOk

instance {ε α : Type} [DecidableEq ε] [DecidableEq α] :
    DecidableEq (Except ε α) := fun a b =>
  match a, b with
  | .error e, .error f =>
    if h : e = f then .isTrue (by rw [h]) else .isFalse (fun hh => by cases hh; exact h rfl)
  | .error _, .ok _ => .isFalse (fun hh => by cases hh)
  | .ok _, .error _ => .isFalse (fun hh => by cases hh)
  | .ok x, .ok y =>
    if h : x = y then .isTrue (by rw [h]) else .isFalse (fun hh => by cases hh; exact h rfl)

/-- One conversation yielded by `get_all_messages` as the orchestration loop
observes it: the (possibly missing) `id` value and the outcome of the
`get_conversation_messages` call — `HostawayAPIError` (`.error ()`) or a
list of messages, each abstracted to its `_process_message` outcome. -/
structure Conversation where
  id : Option String
  messagesResult : Except Unit (List ProcOutcome)
deriving DecidableEq, Repr

/-- Python truthiness of `conversation_data.get("id")` (the
`if not conversation_id: continue` guard): present and non-empty. -/
def idTruthy : Option String → Bool
  | none => false
  | some s => s ≠ ""

/-- The body of the `for conversation_data in conversations` loop for one
conversation, threading the `(processed_count, error_count)` pair: a falsy
id skips; a `HostawayAPIError` from the conversation-messages lookup is
caught with a warning and skips; an empty message list skips; otherwise
each message is merged with the conversation data and handed to
`_process_message`, whose boolean result increments exactly one counter. -/
def runConversation (c : Conversation) (counts : Nat × Nat) : Nat × Nat :=
  if !idTruthy c.id then counts
  else
    match c.messagesResult with
    | .error _ => counts
    | .ok messages =>
      if messages.isEmpty then counts
      else
        messages.foldl
          (fun counts outcome =>
            if processMessage outcome then (counts.1 + 1, counts.2)
            else (counts.1, counts.2 + 1))
          counts

/-- The full conversation loop. -/
def processLoop (conversations : List Conversation) (counts : Nat × Nat) :
    Nat × Nat :=
  conversations.foldl (fun counts c => runConversation c counts) counts

/-- Environment of one `extract_transform_load` run: whether
`validate_config()` succeeds, whether `db.connect()` returns `True`, the
conversations the `get_all_messages` generator yields, and whether the
generator raises (an unhandled `HostawayAPIError` surfacing from
pagination) after yielding them.  `sinceArg` / `dbLatest` model the explicit
cutoff argument (with `none` also covering the falsy empty string) and
`db.get_latest_message_timestamp()`. -/
structure EtlEnv where
  configOk : Bool
  connectOk : Bool
  sinceArg : Option String
  dbLatest : Option String
  conversations : List Conversation
  fetchRaises : Bool

/-- Observable side effects of a run on its collaborators. -/
inductive Effect where
  | notify : Effect
  | disconnect : Effect
deriving DecidableEq, Repr

/-- Result of `extract_transform_load`: the returned boolean, the final
counter attributes, the effective cutoff passed to `get_all_messages`, and
the ordered effects on the notification and store collaborators. -/
structure RunResult where
  success : Bool
  processed : Nat
  errors : Nat
  sinceUsed : Option String
  effects : List Effect
deriving DecidableEq, Repr

/-- `extract_transform_load`.  Path by path, as in the source: a
`validate_config()` failure raises inside the `try`, is caught by the
top-level handler (notification sent, `False` returned); a failed
`db.connect()` sends a notification and returns `False`; otherwise the
cutoff is resolved (explicit argument, else the store's latest timestamp),
the conversation loop runs, and an exception from the generator reaches the
top-level handler with the counters as they stand; a completed loop returns
`error_count == 0`.  The `finally` block appends exactly one
`db.disconnect()` to every path. -/
def extractTransformLoad (env : EtlEnv) : RunResult :=
  if !env.configOk then
    { success := false, processed := 0, errors := 0, sinceUsed := none
      effects := [Effect.notify, Effect.disconnect] }
  else if !env.connectOk then
    { success := false, processed := 0, errors := 0, sinceUsed := none
      effects := [Effect.notify, Effect.disconnect] }
  else
    let since :=
      match env.sinceArg with
      | some s => some s
      | none => env.dbLatest
    let counts := processLoop env.conversations (0, 0)
    if env.fetchRaises then
      { success := false, processed := counts.1, errors := counts.2
        sinceUsed := since, effects := [Effect.notify, Effect.disconnect] }
    else
      { success := counts.2 == 0, processed := counts.1, errors := counts.2
        sinceUsed := since, effects := [Effect.disconnect] }

/-- The records of a conversation that actually reach `_process_message`:
none when the conversation is skipped, its message list otherwise. -/
def recordsOf (c : Conversation) : List ProcOutcome :=
  if !idTruthy c.id then []
  else
    match c.messagesResult with
    | .error _ => []
    | .ok messages => messages

/-- All records of a run that reach `_process_message`. -/
def recordsOfRun (conversations : List Conversation) : List ProcOutcome :=
  (conversations.map recordsOf).flatten

end Pipeline

/-! ## Concrete fixtures used by counterexamples and witnesses -/

namespace Fixtures

open HostawayClient

/-- A fixed `datetime.now()` value. -/
def now0 : PyDateTime := ⟨2024, 1, 1, 0, 0, 0⟩

/-- Enrichment environment whose conversation-messages lookup returns one
message with body `"hello"` for every conversation id, and whose other
lookups fail. -/
def envHello : EnrichEnv :=
  { propertyDetails := fun _ => .error ()
    reservationDetails := fun _ => .error ()
    conversationMessages := fun _ => .ok [{ body := some "hello" }]
    parseDateTime := fun _ => none
    parseIso := fun _ => none
    now := now0 }

/-- Enrichment environment whose lookups all succeed with empty results:
the conversation-messages lookup returns an empty list. -/
def envEmptyConv : EnrichEnv :=
  { propertyDetails := fun _ => .ok {}
    reservationDetails := fun _ => .ok {}
    conversationMessages := fun _ => .ok []
    parseDateTime := fun _ => none
    parseIso := fun _ => none
    now := now0 }

/-- A raw record with no embedded message body. -/
def rNoBody : RawRecord := { id := some "1" }

/-- A raw record with an inline body and nothing else of note. -/
def rInline : RawRecord := { id := some "7", body := some "inline" }

/-- A raw record whose `type` tag starts with `"automated"`. -/
def rAutomated : RawRecord :=
  { id := some "9", type := some "automated-message" }

/-- Two parsed timestamps on the same calendar day with different
times of day. -/
def tMorning : PyDateTime := ⟨2024, 5, 17, 8, 30, 0⟩

/-- Evening counterpart of `tMorning`. -/
def tEvening : PyDateTime := ⟨2024, 5, 17, 23, 59, 9⟩

/-- A batch of three records in one conversation, the second of which makes
the transformer raise. -/
def convBatch3 : Pipeline.Conversation :=
  { id := some "c1"
    messagesResult := .ok [.transformed true, .transformRaises, .transformed true] }

/-- Run environment for the three-record partial-failure scenario. -/
def envBatch3 : Pipeline.EtlEnv :=
  { configOk := true, connectOk := true, sinceArg := none, dbLatest := none
    conversations := [convBatch3], fetchRaises := false }

/-- A fetched conversation record with no `id` field. -/
def convNoId : Pipeline.Conversation :=
  { id := none, messagesResult := .ok [.transformed true] }

/-- A conversation whose conversation-messages lookup raises
`HostawayAPIError`. -/
def convLookupErr : Pipeline.Conversation :=
  { id := some "c2", messagesResult := .error () }

/-- A conversation whose lookup returns zero messages. -/
def convEmpty : Pipeline.Conversation :=
  { id := some "c3", messagesResult := .ok [] }

/-- A conversation with a single successfully processed message. -/
def convGood : Pipeline.Conversation :=
  { id := some "c4", messagesResult := .ok [.transformed true] }

/-- Run environment containing all three kinds of skipped conversation next
to one good one. -/
def envSkips : Pipeline.EtlEnv :=
  { configOk := true, connectOk := true, sinceArg := none, dbLatest := none
    conversations := [convNoId, convLookupErr, convEmpty, convGood]
    fetchRaises := false }

/-- The message the `src/message_database` transformer produces for
`rInline` under `envEmptyConv`: the inline body is ignored and content is
empty. -/
def mdbMsgInline : Message :=
  { message_id := "7", property := ⟨"", ""⟩, guest := ⟨"", none, none, none⟩
    content := "", timestamp := now0, direction := "outgoing"
    reservation := none, message_type := "manual"
    created_at := now0, updated_at := now0 }

/-- The message the `src/message_database` transformer produces for
`rAutomated` under `envEmptyConv`: its `message_type` is `"automated"` via
the prefix rule. -/
def mdbMsgAutomated : Message :=
  { message_id := "9", property := ⟨"", ""⟩, guest := ⟨"", none, none, none⟩
    content := "", timestamp := now0, direction := "outgoing"
    reservation := none, message_type := "automated"
    created_at := now0, updated_at := now0 }

/-- An empty, connected store. -/
def store0 : MongoStore.State := { connected := true, docs := [] }

/-- First write of the upsert-idempotence witness. -/
def docFirst : MongoStore.Doc :=
  [("message_id", "m1"), ("content", "first"), ("direction", "incoming")]

/-- Second write with the same key and different field values. -/
def docSecond : MongoStore.Doc :=
  [("message_id", "m1"), ("content", "second"), ("direction", "outgoing")]

end Fixtures

/-! ## Theorems -/

/-- C6: the transformed direction is `"incoming"` exactly when the record's
`isIncoming` flag is present and truthy, or the flag is absent and the
record's `type` tag equals `"guest-host-email"`; in every other case —
flag present and falsy, tag present with any other value (including the
explicit `"host-guest-email"` arm), or neither signal present — the
direction is `"outgoing"`. -/
theorem direction_inference_characterization (env : EnrichEnv) (r : RawRecord) :
    (Pipeline.transformMessage env r).1.direction =
      if r.isIncoming = some true ∨
          (r.isIncoming = none ∧ r.type = some "guest-host-email")
      then "incoming" else "outgoing" := by
  have hproj : (Pipeline.transformMessage env r).1.direction =
      Pipeline.directionOf r := rfl
  rw [hproj]
  unfold Pipeline.directionOf
  cases hI : r.isIncoming with
  | some b => cases b <;> simp [hI]
  | none =>
    cases hT : r.type with
    | none => simp
    | some s =>
      by_cases hs : s = "guest-host-email"
      · simp [hs]
      · by_cases hs2 : s = "host-guest-email" <;> simp [hs, hs2]

/-- C8: on every execution path of `extract_transform_load` — normal
completion, configuration-validation failure, store-connect failure, and an
unhandled exception from the fetch/transform/load loop — the store's
`disconnect()` is invoked exactly once. -/
theorem etl_disconnect_exactly_once (env : Pipeline.EtlEnv) :
    (Pipeline.extractTransformLoad env).effects.count Pipeline.Effect.disconnect
      = 1 := by
  rcases env with ⟨configOk, connectOk, sinceArg, dbLatest, conversations, fetchRaises⟩
  cases configOk <;> cases connectOk <;> cases fetchRaises <;>
    simp [Pipeline.extractTransformLoad, List.count_cons]

/-- C10: for a non-empty `since_timestamp`, `get_messages` sends only the
date portion of the parsed timestamp, as the `arrivalStartDate` query
parameter, next to `limit` and `offset`; no other filter parameter is sent,
and two cutoffs on the same calendar day produce identical parameters, so
the effective incremental cutoff has day granularity. -/
theorem get_messages_day_granularity (t u : HostawayClient.PyDateTime)
    (limit offset : Nat)
    (hy : t.year = u.year) (hm : t.month = u.month) (hd : t.day = u.day) :
    HostawayClient.getMessagesParams (some t) limit offset =
      [("limit", HostawayClient.ParamValue.nat limit),
       ("offset", HostawayClient.ParamValue.nat offset),
       ("arrivalStartDate", HostawayClient.ParamValue.date t.year t.month t.day)]
    ∧ HostawayClient.getMessagesParams (some t) limit offset =
        HostawayClient.getMessagesParams (some u) limit offset := by
  refine ⟨rfl, ?_⟩
  simp [HostawayClient.getMessagesParams, hy, hm, hd]

/-- Witness for C10: a morning and an evening cutoff on 2024-05-17 produce
the same parameters, whose only date-bearing entry is `arrivalStartDate`
with the day portion. -/
theorem get_messages_day_granularity_witness :
    HostawayClient.getMessagesParams (some Fixtures.tMorning) 100 0 =
      [("limit", HostawayClient.ParamValue.nat 100),
       ("offset", HostawayClient.ParamValue.nat 0),
       ("arrivalStartDate", HostawayClient.ParamValue.date 2024 5 17)]
    ∧ HostawayClient.getMessagesParams (some Fixtures.tMorning) 100 0 =
        HostawayClient.getMessagesParams (some Fixtures.tEvening) 100 0 :=
  get_messages_day_granularity Fixtures.tMorning Fixtures.tEvening 100 0
    rfl rfl rfl

/-- Helper for the pagination claim, generalised over the starting offset:
whenever the pages at offsets `offset + i·limit` are full (length `≥ limit`)
for all `i < n` and the page at `offset + n·limit` is the first empty or
short one, the loop yields exactly the concatenation of those `n + 1` pages
and issues exactly `n + 1` requests, for every sufficient iteration bound. -/
theorem getAllMessagesGo_eq {α : Type} (pages : Nat → List α) (limit : Nat)
    (hlim : 1 ≤ limit) :
    ∀ (n offset fuel : Nat),
      (∀ i, i < n → limit ≤ (pages (offset + i * limit)).length) →
      (pages (offset + n * limit)).length < limit →
      n < fuel →
      HostawayClient.getAllMessagesGo pages limit fuel offset =
        (HostawayClient.pagesConcat pages limit offset n, n + 1) := by
  intro n
  induction n with
  | zero =>
    intro offset fuel hfull hshort hfuel
    obtain ⟨f, rfl⟩ : ∃ f, fuel = f + 1 := ⟨fuel - 1, by omega⟩
    simp only [Nat.zero_mul, Nat.add_zero] at hshort
    by_cases he : (pages offset).isEmpty
    · have hnil : pages offset = [] := by simpa using he
      simp [HostawayClient.getAllMessagesGo, HostawayClient.pagesConcat, he, hnil]
    · simp [HostawayClient.getAllMessagesGo, HostawayClient.pagesConcat, he, hshort]
  | succ n ih =>
    intro offset fuel hfull hshort hfuel
    obtain ⟨f, rfl⟩ : ∃ f, fuel = f + 1 := ⟨fuel - 1, by omega⟩
    have h0 : limit ≤ (pages offset).length := by
      have h := hfull 0 (by omega)
      simpa using h
    have hne : ¬ (pages offset).isEmpty := by
      intro h
      have hnil : pages offset = [] := by simpa using h
      rw [hnil] at h0
      simp at h0
      omega
    have hnlt : ¬ ((pages offset).length < limit) := by omega
    have hrest := ih (offset + limit) f
      (fun i hi => by
        have harith : offset + limit + i * limit = offset + (i + 1) * limit := by
          ring
        rw [harith]
        exact hfull (i + 1) (by omega))
      (by
        have harith : offset + limit + n * limit = offset + (n + 1) * limit := by
          ring
        rw [harith]
        exact hshort)
      (by omega)
    simp only [HostawayClient.getAllMessagesGo]
    rw [if_neg hne, if_neg hnlt, hrest]
    simp only [HostawayClient.pagesConcat, Prod.mk.injEq]
    exact ⟨trivial, by omega⟩

/-- C3: `get_all_messages` yields exactly the concatenation of the pages up
to and including the first page that is empty or shorter than the page-size
limit, and issues exactly one request per such page — in particular no
request after the first short page — for every sufficient iteration bound,
i.e. the `while True` loop always exits at that page and never loops
indefinitely. -/
theorem get_all_messages_pagination {α : Type} (pages : Nat → List α)
    (limit n : Nat) (hlim : 1 ≤ limit)
    (hfull : ∀ i, i < n → limit ≤ (pages (i * limit)).length)
    (hshort : (pages (n * limit)).length < limit) :
    ∀ fuel, n < fuel →
      HostawayClient.getAllMessages pages limit fuel =
        (HostawayClient.pagesConcat pages limit 0 n, n + 1) := by
  intro fuel hfuel
  unfold HostawayClient.getAllMessages
  exact getAllMessagesGo_eq pages limit hlim n 0 fuel
    (fun i hi => by simpa using hfull i hi) (by simpa using hshort) hfuel

/-- Witness for C3: against the stub producing pages of sizes `[2, 2, 1]`
with page-size limit 2, the loop yields exactly the five records and makes
exactly three requests, none after the short page. -/
theorem get_all_messages_pagination_witness :
    HostawayClient.getAllMessages HostawayClient.pagesStub 2 3 =
      (["m1", "m2", "m3", "m4", "m5"], 3) := by
  have h := get_all_messages_pagination HostawayClient.pagesStub 2 2
    (by decide) (by decide) (by decide) 3 (by decide)
  rw [h]
  rfl

/-- The inner message loop adds one to the processed counter per record
whose `_process_message` returns `True` and one to the error counter per
record whose `_process_message` returns `False`. -/
theorem foldl_process_counts (messages : List Pipeline.ProcOutcome) :
    ∀ acc : Nat × Nat,
      messages.foldl
        (fun counts outcome =>
          if Pipeline.processMessage outcome then (counts.1 + 1, counts.2)
          else (counts.1, counts.2 + 1))
        acc =
      (acc.1 + messages.countP (fun m => Pipeline.processMessage m),
       acc.2 + messages.countP (fun m => !Pipeline.processMessage m)) := by
  induction messages with
  | nil => simp
  | cons m rest ih =>
    intro acc
    rw [List.foldl_cons, ih, Prod.ext_iff]
    by_cases hm : Pipeline.processMessage m = true <;>
      simp [hm, List.countP_cons] <;> omega

/-- Per-conversation counter bookkeeping: a conversation adds exactly the
success/failure counts of the records that reach `_process_message`. -/
theorem runConversation_counts (c : Pipeline.Conversation) (p e : Nat) :
    Pipeline.runConversation c (p, e) =
      (p + (Pipeline.recordsOf c).countP (fun m => Pipeline.processMessage m),
       e + (Pipeline.recordsOf c).countP (fun m => !Pipeline.processMessage m)) := by
  rcases c with ⟨cid, cres⟩
  cases hid : Pipeline.idTruthy cid with
  | false => simp [Pipeline.runConversation, Pipeline.recordsOf, hid]
  | true =>
    cases cres with
    | error err => simp [Pipeline.runConversation, Pipeline.recordsOf, hid]
    | ok messages =>
      cases messages with
      | nil => simp [Pipeline.runConversation, Pipeline.recordsOf, hid]
      | cons m rest =>
        simp only [Pipeline.runConversation, Pipeline.recordsOf, hid,
          Bool.not_true, Bool.false_eq_true, if_false, List.isEmpty_cons,
          foldl_process_counts]

/-- Whole-loop counter bookkeeping. -/
theorem processLoop_counts (conversations : List Pipeline.Conversation) :
    ∀ p e : Nat,
      Pipeline.processLoop conversations (p, e) =
        (p + (Pipeline.recordsOfRun conversations).countP
              (fun m => Pipeline.processMessage m),
         e + (Pipeline.recordsOfRun conversations).countP
              (fun m => !Pipeline.processMessage m)) := by
  induction conversations with
  | nil => simp [Pipeline.processLoop, Pipeline.recordsOfRun]
  | cons c rest ih =>
    intro p e
    have hstep :
        Pipeline.processLoop (c :: rest) (p, e) =
          Pipeline.processLoop rest (Pipeline.runConversation c (p, e)) := rfl
    rw [hstep, runConversation_counts]
    rw [ih]
    simp [Pipeline.recordsOfRun, List.countP_append, Nat.add_assoc]

/-- C1: in a run that reaches the processing loop and whose fetch sequence
does not raise, every record whose processing fails increments the error
counter by one and the loop continues, every record that succeeds increments
the processed counter by one — the final counters are exactly the counts of
failed and successful records — and the run returns `True` if and only if
the final error count is zero. -/
theorem etl_partial_failure_counters (env : Pipeline.EtlEnv)
    (hc : env.configOk = true) (hk : env.connectOk = true)
    (hf : env.fetchRaises = false) :
    (Pipeline.extractTransformLoad env).processed =
        (Pipeline.recordsOfRun env.conversations).countP
          (fun m => Pipeline.processMessage m)
    ∧ (Pipeline.extractTransformLoad env).errors =
        (Pipeline.recordsOfRun env.conversations).countP
          (fun m => !Pipeline.processMessage m)
    ∧ ((Pipeline.extractTransformLoad env).success = true ↔
        (Pipeline.extractTransformLoad env).errors = 0) := by
  unfold Pipeline.extractTransformLoad
  rw [hc, hk, hf]
  rw [processLoop_counts env.conversations 0 0]
  simp

/-- Witness for C1: a batch of three records in which the transformer raises
on the second ends with `processed_count = 2`, `error_count = 1` and overall
result `False`. -/
theorem etl_partial_failure_counters_witness :
    (Pipeline.extractTransformLoad Fixtures.envBatch3).processed = 2
    ∧ (Pipeline.extractTransformLoad Fixtures.envBatch3).errors = 1
    ∧ (Pipeline.extractTransformLoad Fixtures.envBatch3).success = false := by
  have h := etl_partial_failure_counters Fixtures.envBatch3 rfl rfl rfl
  refine ⟨by rw [h.1]; decide, by rw [h.2.1]; decide, ?_⟩
  cases hs : (Pipeline.extractTransformLoad Fixtures.envBatch3).success with
  | false => rfl
  | true =>
    have h0 := h.2.2.mp hs
    rw [h.2.1] at h0
    exact absurd h0 (by decide)

/-- C9: a fetched conversation with a missing (or Python-falsy) `id`, one
whose conversation-messages lookup raises `HostawayAPIError`, and one whose
lookup returns zero messages are each skipped entirely — prepending such a
conversation leaves the whole run result (counters, success flag and
effects) unchanged — and a run whose remaining conversations all process
cleanly still reports overall success despite such skipped conversations. -/
theorem etl_skip_conversations :
    (∀ (env : Pipeline.EtlEnv) (c : Pipeline.Conversation),
      (Pipeline.idTruthy c.id = false ∨ c.messagesResult = .error ()
        ∨ c.messagesResult = .ok []) →
      Pipeline.extractTransformLoad
          { env with conversations := c :: env.conversations } =
        Pipeline.extractTransformLoad env)
    ∧ Pipeline.extractTransformLoad Fixtures.envSkips =
        { success := true, processed := 1, errors := 0, sinceUsed := none
          effects := [Pipeline.Effect.disconnect] } := by
  constructor
  · intro env c hc
    have hskip : ∀ counts, Pipeline.runConversation c counts = counts := by
      intro counts
      rcases hc with h | h | h <;> simp [Pipeline.runConversation, h]
    unfold Pipeline.extractTransformLoad
    rcases env with ⟨configOk, connectOk, sinceArg, dbLatest, conversations, fetchRaises⟩
    simp only [Pipeline.processLoop, List.foldl_cons, hskip]
  · decide

/-- Witness for C9: prepending a conversation with no `id` to the
mixed-skip run does not change its result. -/
theorem etl_skip_conversations_witness :
    Pipeline.extractTransformLoad
        { Fixtures.envSkips with
            conversations := Fixtures.convNoId :: Fixtures.envSkips.conversations } =
      Pipeline.extractTransformLoad Fixtures.envSkips :=
  etl_skip_conversations.1 Fixtures.envSkips Fixtures.convNoId
    (Or.inl (by decide))

/-- Reading a field of a cons-cell document. -/
theorem getField_cons (k1 : String) (v1 : String) (rest : MongoStore.Doc)
    (k : String) :
    MongoStore.getField ((k1, v1) :: rest) k =
      if k1 = k then some v1 else MongoStore.getField rest k := by
  by_cases h : k1 = k <;> simp [MongoStore.getField, List.find?_cons, h]

/-- Setting a field then reading it back yields the written value. -/
theorem getField_setField_self (d : MongoStore.Doc) (k v : String) :
    MongoStore.getField (MongoStore.setField d k v) k = some v := by
  induction d with
  | nil => simp [MongoStore.setField, getField_cons]
  | cons kv rest ih =>
    by_cases h : kv.1 = k
    · simp [MongoStore.setField, h, getField_cons]
    · obtain ⟨k1, v1⟩ := kv
      simp only at h
      simp [MongoStore.setField, h, getField_cons, ih]

/-- Setting one field leaves the others unchanged. -/
theorem getField_setField_other (d : MongoStore.Doc) (k v k2 : String)
    (h : k ≠ k2) :
    MongoStore.getField (MongoStore.setField d k v) k2 =
      MongoStore.getField d k2 := by
  induction d with
  | nil => simp [MongoStore.setField, getField_cons, h, MongoStore.getField]
  | cons kv rest ih =>
    obtain ⟨k1, v1⟩ := kv
    by_cases h1 : k1 = k
    · simp [MongoStore.setField, h1, getField_cons, h]
    · simp [MongoStore.setField, h1, getField_cons, ih]

/-- `$set` with an update document not mentioning key `k` leaves field `k`
unchanged. -/
theorem applySet_getField_not_mem (m : MongoStore.Doc) :
    ∀ (d : MongoStore.Doc) (k : String), k ∉ MongoStore.docKeys m →
      MongoStore.getField (MongoStore.applySet d m) k =
        MongoStore.getField d k := by
  induction m with
  | nil => intro d k _; rfl
  | cons kv rest ih =>
    intro d k hk
    obtain ⟨k1, v1⟩ := kv
    simp only [MongoStore.docKeys, List.map_cons, List.mem_cons] at hk
    push_neg at hk
    have hstep :
        MongoStore.applySet d ((k1, v1) :: rest) =
          MongoStore.applySet (MongoStore.setField d k1 v1) rest := rfl
    rw [hstep, ih _ k (by simpa [MongoStore.docKeys] using hk.2),
      getField_setField_other _ _ _ _ (fun h => hk.1 h.symm)]

/-- `$set` writes every field of the update document: afterwards each key of
`m` (a Python dictionary, hence with unique keys) holds `m`'s value. -/
theorem applySet_getField_mem (m : MongoStore.Doc) :
    ∀ (d : MongoStore.Doc) (k v : String), MongoStore.docKeysNodup m →
      MongoStore.getField m k = some v →
      MongoStore.getField (MongoStore.applySet d m) k = some v := by
  induction m with
  | nil => intro d k v _ hget; simp [MongoStore.getField] at hget
  | cons kv rest ih =>
    intro d k v hnd hget
    obtain ⟨k1, v1⟩ := kv
    have hnd2 : k1 ∉ MongoStore.docKeys rest ∧ MongoStore.docKeysNodup rest := by
      simpa [MongoStore.docKeysNodup, MongoStore.docKeys, List.nodup_cons]
        using hnd
    have hstep :
        MongoStore.applySet d ((k1, v1) :: rest) =
          MongoStore.applySet (MongoStore.setField d k1 v1) rest := rfl
    rw [getField_cons] at hget
    by_cases h1 : k1 = k
    · rw [if_pos h1] at hget
      rw [hstep, ← h1, applySet_getField_not_mem rest _ k1 hnd2.1,
        getField_setField_self]
      exact hget
    · rw [if_neg h1] at hget
      rw [hstep]
      exact ih _ k v hnd2.2 hget

/-- Decomposition of the unique-key store invariant at a cons cell. -/
theorem storeKeys_cons (d : MongoStore.Doc) (rest : List MongoStore.Doc)
    (h : MongoStore.storeKeysNodup (d :: rest)) :
    MongoStore.getField d "message_id" ∉
        rest.map (fun d2 => MongoStore.getField d2 "message_id")
      ∧ MongoStore.storeKeysNodup rest := by
  simpa [MongoStore.storeKeysNodup, List.nodup_cons] using h

/-- After an upsert keyed on `key` into a store satisfying the unique-key
invariant, exactly one document carries that key. -/
theorem updateOne_countKey (key : String) (m : MongoStore.Doc)
    (hm : MongoStore.getField m "message_id" = some key)
    (hnd : MongoStore.docKeysNodup m) :
    ∀ docs : List MongoStore.Doc, MongoStore.storeKeysNodup docs →
      MongoStore.countKey (MongoStore.updateOneUpsert docs key m) key = 1 := by
  intro docs
  induction docs with
  | nil =>
    intro _
    have hfield := applySet_getField_mem m [("message_id", key)] "message_id"
      key hnd hm
    simp [MongoStore.updateOneUpsert, MongoStore.countKey, hfield]
  | cons d rest ih =>
    intro hstore
    obtain ⟨hnotin, hrest⟩ := storeKeys_cons d rest hstore
    by_cases hd : MongoStore.getField d "message_id" = some key
    · have hfield := applySet_getField_mem m d "message_id" key hnd hm
      have hzero : MongoStore.countKey rest key = 0 := by
        rw [MongoStore.countKey, List.countP_eq_zero]
        intro d2 hd2
        simp only [decide_eq_true_eq]
        intro hcontra
        exact hnotin (by rw [hd]; exact List.mem_map.mpr ⟨d2, hd2, hcontra⟩)
      have hz2 := hzero
      rw [MongoStore.countKey] at hz2
      simp [MongoStore.updateOneUpsert, hd, MongoStore.countKey,
        List.countP_cons, hfield, hz2]
    · have hih := ih hrest
      rw [MongoStore.countKey] at hih
      simp [MongoStore.updateOneUpsert, hd, MongoStore.countKey,
        List.countP_cons, hih]

/-- The `message_id` values present after an upsert are among the old ones
plus the upserted key. -/
theorem updateOne_keys_subset (key : String) (m : MongoStore.Doc)
    (hm : MongoStore.getField m "message_id" = some key)
    (hnd : MongoStore.docKeysNodup m) :
    ∀ (docs : List MongoStore.Doc) (x : Option String),
      x ∈ (MongoStore.updateOneUpsert docs key m).map
            (fun d => MongoStore.getField d "message_id") →
      x ∈ docs.map (fun d => MongoStore.getField d "message_id")
        ∨ x = some key := by
  intro docs
  induction docs with
  | nil =>
    intro x hx
    have hfield := applySet_getField_mem m [("message_id", key)] "message_id"
      key hnd hm
    right
    simpa [MongoStore.updateOneUpsert, hfield] using hx
  | cons d rest ih =>
    intro x hx
    by_cases hd : MongoStore.getField d "message_id" = some key
    · have hfield := applySet_getField_mem m d "message_id" key hnd hm
      simp only [MongoStore.updateOneUpsert] at hx
      rw [if_pos hd, List.map_cons] at hx
      rcases List.mem_cons.mp hx with hx1 | hx1
      · right; rw [hx1, hfield]
      · left; rw [List.map_cons]; exact List.mem_cons_of_mem _ hx1
    · simp only [MongoStore.updateOneUpsert] at hx
      rw [if_neg hd, List.map_cons] at hx
      rcases List.mem_cons.mp hx with hx1 | hx1
      · left
        rw [List.map_cons, hx1]
        exact List.mem_cons_self _ _
      · rcases ih x hx1 with h | h
        · left; rw [List.map_cons]; exact List.mem_cons_of_mem _ h
        · right; exact h

/-- An upsert preserves the unique-key store invariant. -/
theorem updateOne_storeKeysNodup (key : String) (m : MongoStore.Doc)
    (hm : MongoStore.getField m "message_id" = some key)
    (hnd : MongoStore.docKeysNodup m) :
    ∀ docs : List MongoStore.Doc, MongoStore.storeKeysNodup docs →
      MongoStore.storeKeysNodup (MongoStore.updateOneUpsert docs key m) := by
  intro docs
  induction docs with
  | nil =>
    intro _
    simp [MongoStore.updateOneUpsert, MongoStore.storeKeysNodup]
  | cons d rest ih =>
    intro hstore
    obtain ⟨hnotin, hrest⟩ := storeKeys_cons d rest hstore
    by_cases hd : MongoStore.getField d "message_id" = some key
    · have hfield := applySet_getField_mem m d "message_id" key hnd hm
      simp only [MongoStore.updateOneUpsert]
      rw [if_pos hd]
      simp only [MongoStore.storeKeysNodup, List.map_cons, List.nodup_cons]
      rw [hd] at hnotin
      rw [hfield]
      exact ⟨hnotin, hrest⟩
    · simp only [MongoStore.updateOneUpsert]
      rw [if_neg hd]
      simp only [MongoStore.storeKeysNodup, List.map_cons, List.nodup_cons]
      refine ⟨fun hc => ?_, ih hrest⟩
      rcases updateOne_keys_subset key m hm hnd rest _ hc with h | h
      · exact hnotin h
      · exact hd h

/-- After an upsert the document stored under `key` is some pre-existing or
fresh base document with `$set m` applied. -/
theorem updateOne_findByKey (key : String) (m : MongoStore.Doc)
    (hm : MongoStore.getField m "message_id" = some key)
    (hnd : MongoStore.docKeysNodup m) :
    ∀ docs : List MongoStore.Doc,
      ∃ d0, MongoStore.findByKey (MongoStore.updateOneUpsert docs key m) key =
        some (MongoStore.applySet d0 m) := by
  intro docs
  induction docs with
  | nil =>
    have hfield := applySet_getField_mem m [("message_id", key)] "message_id"
      key hnd hm
    exact ⟨[("message_id", key)],
      by simp [MongoStore.updateOneUpsert, MongoStore.findByKey,
        List.find?_cons, hfield]⟩
  | cons d rest ih =>
    by_cases hd : MongoStore.getField d "message_id" = some key
    · have hfield := applySet_getField_mem m d "message_id" key hnd hm
      exact ⟨d, by simp [MongoStore.updateOneUpsert, hd,
        MongoStore.findByKey, List.find?_cons, hfield]⟩
    · obtain ⟨d0, hd0⟩ := ih
      refine ⟨d0, ?_⟩
      rw [MongoStore.findByKey] at hd0 ⊢
      simp [MongoStore.updateOneUpsert, hd, List.find?_cons, hd0]

/-- C2: two `insert_message` calls with the same `message_id` (in
particular, a call repeated verbatim, or a call hitting a pre-existing
document) both report success and leave exactly one stored document keyed by
that `message_id`; the unique-key invariant is preserved, and the remaining
document carries the later write's value for every field the later write
sets. -/
theorem insert_message_upsert_idempotent
    (s : MongoStore.State) (m1 m2 : MongoStore.Doc) (key : String)
    (hconn : s.connected = true)
    (hs : MongoStore.storeKeysNodup s.docs)
    (h1 : MongoStore.getField m1 "message_id" = some key)
    (h2 : MongoStore.getField m2 "message_id" = some key)
    (hn1 : MongoStore.docKeysNodup m1) (hn2 : MongoStore.docKeysNodup m2) :
    ∃ s1 s2 : MongoStore.State,
      MongoStore.insertMessage s m1 false false = .ok (true, s1)
      ∧ MongoStore.insertMessage s1 m2 false false = .ok (true, s2)
      ∧ MongoStore.countKey s2.docs key = 1
      ∧ MongoStore.storeKeysNodup s2.docs
      ∧ ∃ d, MongoStore.findByKey s2.docs key = some d
          ∧ ∀ k v, MongoStore.getField m2 k = some v →
              MongoStore.getField d k = some v := by
  rcases s with ⟨sc, sdocs⟩
  have hsc : sc = true := hconn
  subst hsc
  have hs2 : MongoStore.storeKeysNodup sdocs := hs
  refine ⟨⟨true, MongoStore.updateOneUpsert sdocs key m1⟩,
    ⟨true, MongoStore.updateOneUpsert
      (MongoStore.updateOneUpsert sdocs key m1) key m2⟩, ?_, ?_, ?_, ?_, ?_⟩
  · simp [MongoStore.insertMessage, h1]
  · simp [MongoStore.insertMessage, h2]
  · exact updateOne_countKey key m2 h2 hn2 _
      (updateOne_storeKeysNodup key m1 h1 hn1 sdocs hs2)
  · exact updateOne_storeKeysNodup key m2 h2 hn2 _
      (updateOne_storeKeysNodup key m1 h1 hn1 sdocs hs2)
  · obtain ⟨d0, hd0⟩ := updateOne_findByKey key m2 h2 hn2
      (MongoStore.updateOneUpsert sdocs key m1)
    exact ⟨MongoStore.applySet d0 m2, hd0,
      fun k v hkv => applySet_getField_mem m2 d0 k v hn2 hkv⟩

/-- Witness for C2: writing two documents with key `"m1"` and different
field values into the empty connected store succeeds twice and leaves one
document whose fields are the second write's. -/
theorem insert_message_upsert_idempotent_witness :
    ∃ s1 s2 : MongoStore.State,
      MongoStore.insertMessage Fixtures.store0 Fixtures.docFirst false false =
          .ok (true, s1)
      ∧ MongoStore.insertMessage s1 Fixtures.docSecond false false =
          .ok (true, s2)
      ∧ MongoStore.countKey s2.docs "m1" = 1
      ∧ MongoStore.storeKeysNodup s2.docs
      ∧ ∃ d, MongoStore.findByKey s2.docs "m1" = some d
          ∧ ∀ k v, MongoStore.getField Fixtures.docSecond k = some v →
              MongoStore.getField d k = some v :=
  insert_message_upsert_idempotent Fixtures.store0 Fixtures.docFirst
    Fixtures.docSecond "m1" rfl (by decide) (by decide) (by decide)
    (by decide) (by decide)

/-- Counterexample to C4: with responses 401, 401, success, `_make_request`
does not surface an `ApiError` after the second consecutive auth failure —
it discards the token and retries a second time, returning the third
response successfully after two token refreshes and three requests (the
claim asserts an `ApiError` after one refresh and two requests). -/
theorem make_request_second_auth_error_counterexample :
    HostawayClient.makeRequest false HostawayClient.responses401twice =
      { outcome := .ok, refreshes := 2, requests := 3 }
    ∧ HostawayClient.makeRequest false HostawayClient.responses401twice ≠
        { outcome := .apiError, refreshes := 1, requests := 2 } := by
  constructor
  · rfl
  · decide

/-- C4 as amended: an HTTP 401/403 response causes the cached token to be
discarded, one re-authentication and one retry, on each of the first two
attempts — so a second consecutive 401/403 after the refresh triggers a
second refresh and a second retry rather than surfacing an error, and only
a third consecutive 401/403 surfaces as `HostawayAPIError`, after exactly
two token refreshes and three requests; a call whose single retry succeeds
performs exactly one refresh and two requests. -/
theorem make_request_auth_refresh_amended
    (r1 r2 : Nat → HostawayClient.HttpResp)
    (h0 : HostawayClient.isAuthFailure (r1 0))
    (h1 : HostawayClient.isAuthFailure (r1 1))
    (h2 : HostawayClient.isAuthFailure (r1 2))
    (g0 : HostawayClient.isAuthFailure (r2 0))
    (st : Nat) (g1 : r2 1 = .resp st "success") (gst : st < 400) :
    HostawayClient.makeRequest false r1 =
      { outcome := .apiError, refreshes := 2, requests := 3 }
    ∧ HostawayClient.makeRequest false r2 =
        { outcome := .ok, refreshes := 1, requests := 2 } := by
  constructor
  · cases hr0 : r1 0 with
    | transportError => rw [hr0] at h0; exact absurd h0 (by simp [HostawayClient.isAuthFailure])
    | resp s0 b0 =>
      cases hr1 : r1 1 with
      | transportError => rw [hr1] at h1; exact absurd h1 (by simp [HostawayClient.isAuthFailure])
      | resp s1 b1 =>
        cases hr2 : r1 2 with
        | transportError => rw [hr2] at h2; exact absurd h2 (by simp [HostawayClient.isAuthFailure])
        | resp s2 b2 =>
          rw [hr0] at h0; rw [hr1] at h1; rw [hr2] at h2
          rcases h0 with h0 | h0 <;> rcases h1 with h1 | h1 <;>
            rcases h2 with h2 | h2 <;> subst h0 <;> subst h1 <;> subst h2 <;>
            simp [HostawayClient.makeRequest, HostawayClient.makeRequestGo,
              HostawayClient.maxRetries, hr0, hr1, hr2]
  · cases hr0 : r2 0 with
    | transportError => rw [hr0] at g0; exact absurd g0 (by simp [HostawayClient.isAuthFailure])
    | resp s0 b0 =>
      rw [hr0] at g0
      have hne : ¬ (st = 401 ∨ st = 403) := by
        rintro (h | h) <;> omega
      have hge : ¬ (400 ≤ st) := by omega
      rcases g0 with h | h <;> subst h <;>
        simp [HostawayClient.makeRequest, HostawayClient.makeRequestGo,
          HostawayClient.maxRetries, hr0, g1, hne, hge]

/-- Witness for the amended C4: three consecutive 401s end in `ApiError`
after two refreshes and three requests; a 401 followed by a success ends
`ok` after one refresh and two requests. -/
theorem make_request_auth_refresh_amended_witness :
    HostawayClient.makeRequest false HostawayClient.responses401always =
      { outcome := .apiError, refreshes := 2, requests := 3 }
    ∧ HostawayClient.makeRequest false HostawayClient.responses401once =
        { outcome := .ok, refreshes := 1, requests := 2 } :=
  make_request_auth_refresh_amended HostawayClient.responses401always
    HostawayClient.responses401once (by decide) (by decide) (by decide)
    (by decide) 200 rfl (by decide)

/-- Neither branch of the property block logs the no-content warning. -/
theorem noContent_not_mem_prop (env : EnrichEnv) (r : RawRecord) :
    Pipeline.Warning.noContent ∉ (Pipeline.propertyNameResolution env r).2 := by
  unfold Pipeline.propertyNameResolution
  split
  · split <;> simp
  · simp

/-- Neither branch of the reservation/guest block logs the no-content
warning. -/
theorem noContent_not_mem_res (env : EnrichEnv) (r : RawRecord) :
    Pipeline.Warning.noContent ∉
      (Pipeline.guestReservationResolution env r).2 := by
  unfold Pipeline.guestReservationResolution
  split
  · split <;> simp
  · simp

/-- Neither branch of the timestamp block logs the no-content warning. -/
theorem noContent_not_mem_ts (env : EnrichEnv) (r : RawRecord) :
    Pipeline.Warning.noContent ∉ (Pipeline.timestampResolution env r).2 := by
  unfold Pipeline.timestampResolution
  split
  · simp
  · split <;> simp

/-- Inversion of the `src/message_database` transformer on success: its
content is always the first entry's body of the conversation-messages
lookup (empty when the lookup result is empty), its `message_type` follows
the `automated*` prefix rule, and its direction follows the `guest*` prefix
rule — the record's own `body` and `isIncoming` fields play no part. -/
theorem mdb_transform_ok (env : EnrichEnv) (r : RawRecord) (msg : Message)
    (h : MessageDatabase.transformMessage env r = .ok msg) :
    ∃ ms, env.conversationMessages (r.id.getD "None") = .ok ms
      ∧ msg.content = ((ms.head?.bind (fun m => m.body)).getD "")
      ∧ msg.message_type =
          (if pyStartsWith (r.type.getD "") "automated" then "automated"
           else "manual")
      ∧ msg.direction =
          (if pyStartsWith (r.type.getD "") "guest" then "incoming"
           else "outgoing") := by
  cases hcm : env.conversationMessages (r.id.getD "None") with
  | error e =>
    simp only [MessageDatabase.transformMessage, Bind.bind, Except.bind, hcm]
      at h
    exact Except.noConfusion h
  | ok ms =>
    simp only [MessageDatabase.transformMessage, Bind.bind, Except.bind, hcm]
      at h
    cases hpd : env.propertyDetails (r.listingMapId.getD "") with
    | error e =>
      simp only [hpd, Except.bind] at h
      exact Except.noConfusion h
    | ok pd =>
      simp only [hpd, Except.bind] at h
      by_cases hres : r.reservationId.getD "" ≠ ""
      · rw [if_pos hres] at h
        cases hrd : env.reservationDetails (r.reservationId.getD "") with
        | error e =>
          simp only [hrd, Except.map, Except.bind] at h
          exact Except.noConfusion h
        | ok rd =>
          simp only [hrd, Except.map, Except.bind] at h
          cases hms : r.messageSentOn with
          | none =>
            simp only [hms, Except.bind, pure, Except.pure,
              Except.ok.injEq] at h
            refine ⟨ms, rfl, ?_, ?_, ?_⟩ <;> simp only [← h] <;> cases ms <;> simp
          | some s =>
            cases hpi : env.parseIso s with
            | none =>
              simp only [hms, hpi, Except.bind] at h
              exact Except.noConfusion h
            | some t =>
              simp only [hms, hpi, Except.bind, pure, Except.pure,
                Except.ok.injEq] at h
              refine ⟨ms, rfl, ?_, ?_, ?_⟩ <;> simp only [← h] <;> cases ms <;> simp
      · rw [if_neg hres] at h
        simp only [Except.bind] at h
        cases hms : r.messageSentOn with
        | none =>
          simp only [hms, Except.bind, pure, Except.pure,
            Except.ok.injEq] at h
          refine ⟨ms, rfl, ?_, ?_, ?_⟩ <;> simp only [← h] <;> cases ms <;> simp
        | some s =>
          cases hpi : env.parseIso s with
          | none =>
            simp only [hms, hpi, Except.bind] at h
            exact Except.noConfusion h
          | some t =>
            simp only [hms, hpi, Except.bind, pure, Except.pure,
              Except.ok.injEq] at h
            refine ⟨ms, rfl, ?_, ?_, ?_⟩ <;> simp only [← h] <;> cases ms <;> simp

/-- Counterexample to C5: the primary transformer gives empty content to a
record with no embedded body even though the conversation-messages lookup
would return a first entry with body `"hello"` (the claim's fallback order
predicts `"hello"`); and the older transformer gives empty content to a
record with inline body `"inline"` when the lookup returns an empty list
(the claim predicts `"inline"`). -/
theorem content_fallback_counterexample :
    (Pipeline.transformMessage Fixtures.envHello Fixtures.rNoBody).1.content = ""
    ∧ Fixtures.envHello.conversationMessages "1" = .ok [{ body := some "hello" }]
    ∧ MessageDatabase.transformMessage Fixtures.envEmptyConv Fixtures.rInline =
        .ok Fixtures.mdbMsgInline
    ∧ Fixtures.mdbMsgInline.content = ""
    ∧ Fixtures.rInline.body = some "inline" :=
  ⟨rfl, rfl, rfl, rfl, rfl⟩

/-- C5 as amended.  In the primary (`src/pipeline`) transformer, content is
exactly the record's own embedded `body` (empty string when absent), with
the non-fatal no-content warning logged exactly when the result is empty —
no conversation-messages lookup takes part, and missing content is never a
per-record error (the transformer is total here).  In the older
(`src/message_database`) transformer, content is always the first entry's
body from the conversation-messages lookup, with the record's inline body
ignored and no warning. -/
theorem content_resolution_amended :
    (∀ (env : EnrichEnv) (r : RawRecord),
      (Pipeline.transformMessage env r).1.content = r.body.getD ""
      ∧ (Pipeline.Warning.noContent ∈ (Pipeline.transformMessage env r).2 ↔
          r.body.getD "" = ""))
    ∧ (∀ (env : EnrichEnv) (r : RawRecord) (msg : Message),
        MessageDatabase.transformMessage env r = .ok msg →
        ∃ ms, env.conversationMessages (r.id.getD "None") = .ok ms
          ∧ msg.content = ((ms.head?.bind (fun m => m.body)).getD "")) := by
  constructor
  · intro env r
    refine ⟨rfl, ?_⟩
    have hsplit : (Pipeline.transformMessage env r).2 =
        (Pipeline.propertyNameResolution env r).2
          ++ (Pipeline.guestReservationResolution env r).2
          ++ Pipeline.contentWarningsOf r
          ++ (Pipeline.timestampResolution env r).2 := rfl
    constructor
    · intro hmem
      by_cases hb : Pipeline.contentOf r = ""
      · exact hb
      · exfalso
        have hc : Pipeline.contentWarningsOf r = [] := by
          unfold Pipeline.contentWarningsOf
          rw [if_neg hb]
        rw [hsplit, hc] at hmem
        simp [List.mem_append, noContent_not_mem_prop env r,
          noContent_not_mem_res env r, noContent_not_mem_ts env r] at hmem
    · intro hb
      have hc : Pipeline.contentWarningsOf r = [Pipeline.Warning.noContent] := by
        unfold Pipeline.contentWarningsOf
        rw [if_pos (show Pipeline.contentOf r = "" from hb)]
      rw [hsplit, hc]
      simp
  · intro env r msg h
    obtain ⟨ms, hcm, hcontent, -, -⟩ := mdb_transform_ok env r msg h
    exact ⟨ms, hcm, hcontent⟩

/-- Witness for the amended C5: a record with inline body `"inline"` keeps
it in the primary transformer even though the lookup would return
`"hello"`; and under the older transformer with an empty lookup the
resulting content is the lookup's (empty) first-entry body. -/
theorem content_resolution_amended_witness :
    (Pipeline.transformMessage Fixtures.envHello Fixtures.rInline).1.content =
      "inline"
    ∧ ∃ ms, Fixtures.envEmptyConv.conversationMessages
          (Fixtures.rInline.id.getD "None") = .ok ms
        ∧ Fixtures.mdbMsgInline.content =
            ((ms.head?.bind (fun m => m.body)).getD "") := by
  constructor
  · have h := (content_resolution_amended.1 Fixtures.envHello Fixtures.rInline).1
    rw [h]
    rfl
  · exact content_resolution_amended.2 Fixtures.envEmptyConv Fixtures.rInline
      Fixtures.mdbMsgInline (by decide)

/-- Counterexample to C7: the primary transformer maps a record whose
`type` tag is `"automated-message"` to `message_type = "manual"`, not
`"automated"` as the claim's prefix rule requires. -/
theorem message_type_prefix_counterexample :
    (Pipeline.transformMessage Fixtures.envHello Fixtures.rAutomated).1.message_type
      = "manual"
    ∧ Fixtures.rAutomated.type = some "automated-message"
    ∧ ("manual" : String) ≠ "automated" :=
  ⟨rfl, rfl, by decide⟩

/-- C7 as amended: the `automated*` prefix rule holds only in the older
(`src/message_database`) transformer; the primary (`src/pipeline`)
transformer ignores the `type` tag and always sets `message_type` to
`"manual"`. -/
theorem message_type_amended :
    (∀ (env : EnrichEnv) (r : RawRecord),
      (Pipeline.transformMessage env r).1.message_type = "manual")
    ∧ (∀ (env : EnrichEnv) (r : RawRecord) (msg : Message),
        MessageDatabase.transformMessage env r = .ok msg →
        msg.message_type =
          (if pyStartsWith (r.type.getD "") "automated" then "automated"
           else "manual")) := by
  constructor
  · intro env r; rfl
  · intro env r msg h
    obtain ⟨-, -, -, hmt, -⟩ := mdb_transform_ok env r msg h
    exact hmt

/-- Witness for the amended C7: the older transformer marks the
`"automated-message"` record as automated; the primary transformer marks it
manual. -/
theorem message_type_amended_witness :
    (Pipeline.transformMessage Fixtures.envHello Fixtures.rAutomated).1.message_type
      = "manual"
    ∧ Fixtures.mdbMsgAutomated.message_type = "automated" := by
  refine ⟨message_type_amended.1 Fixtures.envHello Fixtures.rAutomated, ?_⟩
  have h := message_type_amended.2 Fixtures.envEmptyConv Fixtures.rAutomated
    Fixtures.mdbMsgAutomated (by rfl)
  rw [h]
  rfl

end MessageDB
